import Mathlib

/-!
Verification of the ILI9488 display-driver data plane.

This file gives a shallow embedding of the core routines of the driver
(`src/src/ili9488_mailbox.cpp`, `src/src/pixel_utils.cpp`,
`src/src/spi_dma_linux.cpp`, `src/src/gpu_rotate.cpp`) and proves the
spec-level properties about them:

* the triple-buffer role indices and the published bus-address slots
  (`rotateBufferIndices`, `swapBackAndFront`, shared-memory creation);
* the CPU pixel-rotation routines (`RotateRgb666` and its three helpers);
* the SPI per-frame command/data framing (`transferDma`);
* the BCM DMA 2D register programming and its completion polling
  (`configureAndWaitDma`).

Machine integers of the source are modelled as `Nat` with explicit
truncation where the source performs a narrowing cast.  Byte buffers are
modelled at pixel granularity (`Pix`, one 3-byte RGB666 unit): every read
and write of the modelled routines touches three consecutive bytes at a
3-aligned offset, so a buffer `Nat → Pix` is the exact image of the byte
array under the grouping `i ↦ (bytes[3i], bytes[3i+1], bytes[3i+2])`.
-/

/-! ## Triple-buffer arena: role indices and published bus addresses

Embeds the index bookkeeping of `ILI9488Framebuffer` in
`src/src/ili9488_mailbox.cpp`.  The state carries the three role indices
`front_index_`, `back_index_`, `pending_index_` and the three header
slots `buffer_a_bus_addr`, `buffer_b_bus_addr`, `buffer_c_bus_addr`; the
fixed table `addr : Nat → Nat` models the array `mailbox_bus_addr_`,
which no arena operation mutates. -/

structure ArenaState where
  front : Nat
  back : Nat
  pending : Nat
  slotA : Nat
  slotB : Nat
  slotC : Nat
  deriving DecidableEq

/-- Initial arena published by `createTripleBufferSharedMemory`
(`ili9488_mailbox.cpp` lines 791-805): role indices `(0,1,2)` and the
three bus-address slots taken from `mailbox_bus_addr_[0..2]`. -/
def initialArena (addr : Nat → Nat) : ArenaState :=
  { front := 0, back := 1, pending := 2,
    slotA := addr 0, slotB := addr 1, slotC := addr 2 }

/-- `ILI9488Framebuffer::rotateBufferIndices` (`ili9488_mailbox.cpp`
lines 836-851): `temp = pending; pending = back; back = front;
front = temp`, then republish all three bus-address slots from the new
roles. -/
def rotateBufferIndices (addr : Nat → Nat) (s : ArenaState) : ArenaState :=
  let temp := s.pending
  let pending := s.back
  let back := s.front
  let front := temp
  { front := front, back := back, pending := pending,
    slotA := addr front, slotB := addr back, slotC := addr pending }

/-- `ILI9488Framebuffer::swapBackAndFront` (`ili9488_mailbox.cpp` lines
896-906): swap `back_index_` and `front_index_`, republish slots A and B
from the new front/back; slot C is left untouched by the source. -/
def swapBackAndFront (addr : Nat → Nat) (s : ArenaState) : ArenaState :=
  { front := s.back, back := s.front, pending := s.pending,
    slotA := addr s.back, slotB := addr s.front, slotC := s.slotC }

/-- An arena operation performed by the daemon between frames. -/
inductive ArenaOp
  | rotate
  | swap
  deriving DecidableEq

/-- Run a sequence of arena operations from a state. -/
def runArena (addr : Nat → Nat) : List ArenaOp → ArenaState → ArenaState
  | [], s => s
  | ArenaOp.rotate :: ops, s => runArena addr ops (rotateBufferIndices addr s)
  | ArenaOp.swap :: ops, s => runArena addr ops (swapBackAndFront addr s)

/-- The spec invariant: the role indices form the set `{0,1,2}` and the
three header slots hold the bus addresses of the buffers currently in
the front, back and pending roles. -/
def arenaInv (addr : Nat → Nat) (s : ArenaState) : Prop :=
  ({s.front, s.back, s.pending} : Finset Nat) = {0, 1, 2} ∧
  s.slotA = addr s.front ∧ s.slotB = addr s.back ∧ s.slotC = addr s.pending

/-- The role triple, the part of the state claim C5 talks about. -/
def roles (s : ArenaState) : Nat × Nat × Nat :=
  (s.front, s.back, s.pending)

lemma finset_triple_rotate (a b c : Nat) :
    ({c, a, b} : Finset Nat) = {a, b, c} := by
  ext x; simp; tauto

lemma finset_triple_swap (a b c : Nat) :
    ({b, a, c} : Finset Nat) = {a, b, c} := by
  ext x; simp; tauto

lemma arenaInv_initial (addr : Nat → Nat) : arenaInv addr (initialArena addr) := by
  refine ⟨?_, rfl, rfl, rfl⟩
  rfl

lemma arenaInv_rotate (addr : Nat → Nat) (s : ArenaState)
    (h : arenaInv addr s) : arenaInv addr (rotateBufferIndices addr s) := by
  obtain ⟨hperm, _, _, _⟩ := h
  refine ⟨?_, rfl, rfl, rfl⟩
  show ({s.pending, s.front, s.back} : Finset Nat) = {0, 1, 2}
  rw [finset_triple_rotate]
  exact hperm

lemma arenaInv_swap (addr : Nat → Nat) (s : ArenaState)
    (h : arenaInv addr s) : arenaInv addr (swapBackAndFront addr s) := by
  obtain ⟨hperm, hA, hB, hC⟩ := h
  refine ⟨?_, rfl, rfl, hC⟩
  show ({s.back, s.front, s.pending} : Finset Nat) = {0, 1, 2}
  rw [finset_triple_swap]
  exact hperm

lemma arenaInv_run (addr : Nat → Nat) (ops : List ArenaOp) (s : ArenaState)
    (h : arenaInv addr s) : arenaInv addr (runArena addr ops s) := by
  induction ops generalizing s with
  | nil => exact h
  | cons op rest ih =>
    cases op with
    | rotate => exact ih _ (arenaInv_rotate addr s h)
    | swap => exact ih _ (arenaInv_swap addr s h)

/-- **C1.** Starting from the initial roles `(front,back,pending)=(0,1,2)`,
after any sequence of `rotateBufferIndices` and `swapBackAndFront`
operations the set of role indices is `{0,1,2}` and the header slots
`buffer_a_bus_addr`, `buffer_b_bus_addr`, `buffer_c_bus_addr` hold the
bus addresses of the buffers currently in the front, back and pending
roles respectively. -/
theorem arena_roles_permutation_and_bus_slots (addr : Nat → Nat) (ops : List ArenaOp) :
    ({(runArena addr ops (initialArena addr)).front,
      (runArena addr ops (initialArena addr)).back,
      (runArena addr ops (initialArena addr)).pending} : Finset Nat) = {0, 1, 2} ∧
    (runArena addr ops (initialArena addr)).slotA
        = addr (runArena addr ops (initialArena addr)).front ∧
    (runArena addr ops (initialArena addr)).slotB
        = addr (runArena addr ops (initialArena addr)).back ∧
    (runArena addr ops (initialArena addr)).slotC
        = addr (runArena addr ops (initialArena addr)).pending :=
  arenaInv_run addr ops (initialArena addr) (arenaInv_initial addr)

/-- **C5.** Three applications of `rotateBufferIndices` are the identity
on the role triple, two applications of `swapBackAndFront` are the
identity on the role triple, and from the initial indices `(0,1,2)`
three rotates followed by two swaps restore the indices `(0,1,2)`. -/
theorem rotate_cubed_swap_squared_identity (addr : Nat → Nat) (s : ArenaState) :
    roles (rotateBufferIndices addr
            (rotateBufferIndices addr (rotateBufferIndices addr s))) = roles s ∧
    roles (swapBackAndFront addr (swapBackAndFront addr s)) = roles s ∧
    roles (runArena addr
            [ArenaOp.rotate, ArenaOp.rotate, ArenaOp.rotate,
             ArenaOp.swap, ArenaOp.swap] (initialArena addr)) = (0, 1, 2) :=
  ⟨rfl, rfl, rfl⟩

/-! ## Shared-memory arena creation

Embeds `ILI9488Framebuffer::createTripleBufferSharedMemory`
(`ili9488_mailbox.cpp` lines 707-834) on its success path.  The file
system and memory-mapping syscalls (`shm_open`, `ftruncate`, `mmap`,
`sem_init`) are assumed to succeed; every failure branch of the source
simply returns `false`, which the model renders as `none`.  The header
field `pending_sem` is modelled by the pair of arguments the source
passes to `sem_init(&sem, 1, 1)`: its `pshared` flag and initial value. -/

structure TripleBufferShmHeader where
  magic : Nat
  version : Nat
  width : Nat
  height : Nat
  bytes_per_pixel : Nat
  buffer_a_bus_addr : Nat
  buffer_b_bus_addr : Nat
  buffer_c_bus_addr : Nat
  front_index : Nat
  back_index : Nat
  pending_index : Nat
  pending_sem_pshared : Nat
  pending_sem_value : Nat
  frame_counter : Nat
  rotation_degrees : Nat
  daemon_ready : Nat
  app_connected : Nat
  deriving DecidableEq

/-- The fields of `ILI9488Framebuffer` that `createTripleBufferSharedMemory`
reads: the buffer size established by `initialize`, which allocation
strategy is active, whether its three buffer mappings are all non-null,
and the bus-address table `mailbox_bus_addr_`. -/
structure FramebufferState where
  buffer_size : Nat
  using_cma : Bool
  use_mailbox : Bool
  cma_maps_ready : Bool
  mailbox_maps_ready : Bool
  busAddr : Nat → Nat

/-- Result of a successful creation: the initialized header and the size
passed to `ftruncate` for the shared-memory object. -/
structure CreateResult where
  header : TripleBufferShmHeader
  shm_size : Nat
  deriving DecidableEq

/-- `ILI9488Framebuffer::createTripleBufferSharedMemory`
(`ili9488_mailbox.cpp` lines 707-834), success path.  `headerSize`
stands for the C value `sizeof(TripleBufferShmHeader)`. -/
def createTripleBufferSharedMemory (st : FramebufferState) (headerSize : Nat)
    (width height : Nat) : Option CreateResult :=
  let bufferSize := if st.buffer_size = 0 then width * height * 3 else st.buffer_size
  let buffersReady := (st.using_cma && st.cma_maps_ready)
                   || (st.use_mailbox && st.mailbox_maps_ready)
  if buffersReady then
    some { header :=
             { magic := 0x49494C39, version := 1,
               width := width, height := height, bytes_per_pixel := 3,
               buffer_a_bus_addr := st.busAddr 0,
               buffer_b_bus_addr := st.busAddr 1,
               buffer_c_bus_addr := st.busAddr 2,
               front_index := 0, back_index := 1, pending_index := 2,
               pending_sem_pshared := 1, pending_sem_value := 1,
               frame_counter := 0, rotation_degrees := 0,
               daemon_ready := 0, app_connected := 0 },
           shm_size := headerSize + 3 * bufferSize }
  else
    none

/-- **C4.** When `createTripleBufferSharedMemory` succeeds for width `W`
and height `H` (buffers allocated at size `W·H·3`, or not yet sized so
that the call itself sizes them), the header holds
`magic = 0x49494C39`, `version = 1`, `bytes_per_pixel = 3`, role indices
`(0,1,2)`, `frame_counter = 0`, `daemon_ready = 0`, `app_connected = 0`,
the semaphore is initialized process-shared with value 1, and the
shared-memory object has size `sizeof(Header) + 3·W·H·3`. -/
theorem createTripleBufferSharedMemory_initializes
    (st : FramebufferState) (headerSize W H : Nat)
    (hready : ((st.using_cma && st.cma_maps_ready)
            || (st.use_mailbox && st.mailbox_maps_ready)) = true)
    (hsize : st.buffer_size = 0 ∨ st.buffer_size = W * H * 3) :
    ∃ r, createTripleBufferSharedMemory st headerSize W H = some r ∧
      r.header.magic = 0x49494C39 ∧
      r.header.version = 1 ∧
      r.header.bytes_per_pixel = 3 ∧
      r.header.front_index = 0 ∧
      r.header.back_index = 1 ∧
      r.header.pending_index = 2 ∧
      r.header.frame_counter = 0 ∧
      r.header.daemon_ready = 0 ∧
      r.header.app_connected = 0 ∧
      r.header.pending_sem_pshared = 1 ∧
      r.header.pending_sem_value = 1 ∧
      r.shm_size = headerSize + 3 * (W * H * 3) := by
  simp only [createTripleBufferSharedMemory, hready, if_true]
  refine ⟨_, rfl, rfl, rfl, rfl, rfl, rfl, rfl, rfl, rfl, rfl, rfl, rfl, ?_⟩
  show headerSize + 3 * (if st.buffer_size = 0 then W * H * 3 else st.buffer_size)
      = headerSize + 3 * (W * H * 3)
  rcases hsize with h0 | h3
  · rw [h0]; simp
  · rw [h3]; split <;> omega

/-- Witness for C4 at a concrete state: CMA buffers ready for a 320×240
panel, 128-byte header. -/
theorem createTripleBufferSharedMemory_initializes_witness :
    ∃ r, createTripleBufferSharedMemory
        { buffer_size := 320 * 240 * 3, using_cma := true, use_mailbox := true,
          cma_maps_ready := true, mailbox_maps_ready := true,
          busAddr := fun _ => 0 } 128 320 240 = some r ∧
      r.header.magic = 0x49494C39 ∧
      r.header.version = 1 ∧
      r.header.bytes_per_pixel = 3 ∧
      r.header.front_index = 0 ∧
      r.header.back_index = 1 ∧
      r.header.pending_index = 2 ∧
      r.header.frame_counter = 0 ∧
      r.header.daemon_ready = 0 ∧
      r.header.app_connected = 0 ∧
      r.header.pending_sem_pshared = 1 ∧
      r.header.pending_sem_value = 1 ∧
      r.shm_size = 128 + 3 * (320 * 240 * 3) :=
  createTripleBufferSharedMemory_initializes
    { buffer_size := 320 * 240 * 3, using_cma := true, use_mailbox := true,
      cma_maps_ready := true, mailbox_maps_ready := true,
      busAddr := fun _ => 0 } 128 320 240 (by decide) (Or.inr rfl)

/-! ## CPU pixel rotation (`src/src/pixel_utils.cpp`)

Buffers are modelled at pixel granularity: every read and write of the
rotation routines copies the three bytes of one pixel to a 3-aligned
destination offset in scan order, so a byte array of `n·3` bytes is
represented as `Buf := Nat → Pix` with
`buf i = (bytes[3i], bytes[3i+1], bytes[3i+2])`.  Each routine is split
into its list of per-pixel writes `(dst_pixel_index, src_pixel_index)`
in the exact order the source loops produce them, and `applyWrites`,
which performs the loop body `dst[dst_idx + k] = src[src_idx + k]`
(`k = 0,1,2`) for each of them in turn. -/

abbrev Pix := Nat × Nat × Nat

abbrev Buf := Nat → Pix

/-- Perform a list of per-pixel copies `dst[w.1] = src[w.2]` in order. -/
def applyWrites (src : Buf) (ws : List (Nat × Nat)) (dst : Buf) : Buf :=
  ws.foldl (fun d w => Function.update d w.1 (src w.2)) dst

/-- The tile starting offsets of a `for (t = 0; t < n; t += 8)` loop:
the multiples of 8 below `n`. -/
def tileStarts (n : Nat) : List Nat :=
  (List.range ((n + 7) / 8)).map (fun t => t * 8)

/-- The per-pixel writes of `Rotate90Tiled` (`pixel_utils.cpp` lines
86-113), in loop order: 8×8 tiles over the source, and inside a tile
`dst_x = dst_width - 1 - src_y`, `dst_y = src_x` with
`dst_width = height`. -/
def rotate90Writes (width height : Nat) : List (Nat × Nat) :=
  (tileStarts height).flatMap fun tileY =>
    (tileStarts width).flatMap fun tileX =>
      (List.range (min 8 (height - tileY))).flatMap fun y =>
        (List.range (min 8 (width - tileX))).map fun x =>
          let srcY := tileY + y
          let srcX := tileX + x
          let dstX := height - 1 - srcY
          let dstY := srcX
          (dstY * height + dstX, srcY * width + srcX)

/-- The per-pixel writes of `Rotate270Tiled` (`pixel_utils.cpp` lines
115-142), in loop order: 8×8 tiles over the source, and inside a tile
`dst_x = src_y`, `dst_y = dst_height - 1 - src_x` with
`dst_width = height` and `dst_height = width`. -/
def rotate270Writes (width height : Nat) : List (Nat × Nat) :=
  (tileStarts height).flatMap fun tileY =>
    (tileStarts width).flatMap fun tileX =>
      (List.range (min 8 (height - tileY))).flatMap fun y =>
        (List.range (min 8 (width - tileX))).map fun x =>
          let srcY := tileY + y
          let srcX := tileX + x
          let dstX := srcY
          let dstY := width - 1 - srcX
          (dstY * height + dstX, srcY * width + srcX)

/-- The per-pixel writes of `Rotate180Optimized` (`pixel_utils.cpp`
lines 60-84), in loop order: first the blocks of four pixels
(`pixels_4 = total_pixels & ~3`, block `b` starts at source pixel
`total - 4b - 4` and emits its four pixels reversed), then the scalar
tail. -/
def rotate180Writes (width height : Nat) : List (Nat × Nat) :=
  let total := width * height
  let pixels4 := total - total % 4
  ((List.range (pixels4 / 4)).flatMap fun b =>
    [(4 * b, total - 1 - 4 * b), (4 * b + 1, total - 2 - 4 * b),
     (4 * b + 2, total - 3 - 4 * b), (4 * b + 3, total - 4 - 4 * b)])
  ++ ((List.range (total % 4)).map fun j =>
       (pixels4 + j, total - 1 - (pixels4 + j)))

/-- `Rotate90Tiled` (`pixel_utils.cpp` lines 86-113). -/
def Rotate90Tiled (src : Buf) (width height : Nat) (dst : Buf) : Buf :=
  applyWrites src (rotate90Writes width height) dst

/-- `Rotate270Tiled` (`pixel_utils.cpp` lines 115-142). -/
def Rotate270Tiled (src : Buf) (width height : Nat) (dst : Buf) : Buf :=
  applyWrites src (rotate270Writes width height) dst

/-- `Rotate180Optimized` (`pixel_utils.cpp` lines 60-84). -/
def Rotate180Optimized (src : Buf) (width height : Nat) (dst : Buf) : Buf :=
  applyWrites src (rotate180Writes width height) dst

/-- `std::memcpy(dst, src, width*height*3)` at pixel granularity. -/
def memcpyPixels (src : Buf) (count : Nat) (dst : Buf) : Buf :=
  fun i => if i < count then src i else dst i

/-- `RotateRgb666` (`pixel_utils.cpp` lines 146-172): dispatch on
`rotation_degrees`; any value outside `{0,90,180,270}` falls through
the `switch` to the trailing `memcpy`. -/
def RotateRgb666 (src : Buf) (width height : Nat) (rotation_degrees : Int)
    (dst : Buf) : Buf :=
  if rotation_degrees = 0 then memcpyPixels src (width * height) dst
  else if rotation_degrees = 90 then Rotate90Tiled src width height dst
  else if rotation_degrees = 180 then Rotate180Optimized src width height dst
  else if rotation_degrees = 270 then Rotate270Tiled src width height dst
  else memcpyPixels src (width * height) dst

lemma applyWrites_apply_of_agree (src : Buf) (ws : List (Nat × Nat)) (dst : Buf)
    (k : Nat) (v : Pix) (h : ∀ w ∈ ws, w.1 = k → src w.2 = v) (h0 : dst k = v) :
    applyWrites src ws dst k = v := by
  induction ws generalizing dst with
  | nil => exact h0
  | cons w rest ih =>
    refine ih _ (fun u hu hk => h u (List.mem_cons_of_mem _ hu) hk) ?_
    show Function.update dst w.1 (src w.2) k = v
    rw [Function.update_apply]
    by_cases hk : k = w.1
    · rw [if_pos hk]
      exact h w (List.mem_cons_self _ _) hk.symm
    · rw [if_neg hk]
      exact h0

lemma applyWrites_apply_of_mem (src : Buf) (ws : List (Nat × Nat)) (dst : Buf)
    (d s : Nat) (hmem : (d, s) ∈ ws)
    (h : ∀ w ∈ ws, w.1 = d → src w.2 = src s) :
    applyWrites src ws dst d = src s := by
  induction ws generalizing dst with
  | nil => exact absurd hmem (List.not_mem_nil _)
  | cons w rest ih =>
    rcases List.mem_cons.mp hmem with heq | hrest
    · refine applyWrites_apply_of_agree src rest _ d (src s)
        (fun u hu hk => h u (List.mem_cons_of_mem _ hu) hk) ?_
      rw [← heq]
      simp [Function.update_apply]
    · exact ih _ hrest (fun u hu hk => h u (List.mem_cons_of_mem _ hu) hk)

lemma mem_rotate180Writes (width height : Nat) (p : Nat × Nat) :
    p ∈ rotate180Writes width height → p.2 = width * height - 1 - p.1 := by
  intro hp
  simp only [rotate180Writes, List.mem_append, List.mem_flatMap, List.mem_map,
    List.mem_range, List.mem_cons, List.not_mem_nil, or_false] at hp
  rcases hp with ⟨b, _, hb⟩ | ⟨j, _, hj⟩
  · rcases hb with h | h | h | h <;> subst h <;> simp <;> omega
  · rw [← hj]

lemma rotate180Writes_mem_target (width height : Nat) (i : Nat)
    (hi : i < width * height) :
    (i, width * height - 1 - i) ∈ rotate180Writes width height := by
  simp only [rotate180Writes, List.mem_append, List.mem_flatMap, List.mem_map,
    List.mem_range, List.mem_cons, List.not_mem_nil, or_false]
  set total := width * height with htot
  by_cases hlt : i < total - total % 4
  · left
    refine ⟨i / 4, by omega, ?_⟩
    have h4 : i % 4 = 0 ∨ i % 4 = 1 ∨ i % 4 = 2 ∨ i % 4 = 3 := by omega
    rcases h4 with h | h | h | h
    · left; simp [Prod.ext_iff]; omega
    · right; left; simp [Prod.ext_iff]; omega
    · right; right; left; simp [Prod.ext_iff]; omega
    · right; right; right; simp [Prod.ext_iff]; omega
  · right
    exact ⟨i - (total - total % 4), by omega, by simp [Prod.ext_iff]; omega⟩

/-- Pointwise description of `Rotate180Optimized`: the output pixel `i`
is the input pixel `width·height − 1 − i`. -/
lemma Rotate180Optimized_apply (src dst : Buf) (width height : Nat) (i : Nat)
    (hi : i < width * height) :
    Rotate180Optimized src width height dst i = src (width * height - 1 - i) := by
  refine applyWrites_apply_of_mem src _ dst i _
    (rotate180Writes_mem_target width height i hi) ?_
  intro w hw hk
  rw [mem_rotate180Writes width height w hw, hk]

/-- **C6.** `RotateRgb666` with rotation 180 reverses the pixel
sequence: for every `i < W·H`, output pixel `i` equals input pixel
`W·H − 1 − i`. -/
theorem rotate180_reverses_pixels (src dst : Buf) (width height : Nat) (i : Nat)
    (hi : i < width * height) :
    RotateRgb666 src width height 180 dst i = src (width * height - 1 - i) := by
  show Rotate180Optimized src width height dst i = src (width * height - 1 - i)
  exact Rotate180Optimized_apply src dst width height i hi

/-- Witness for C6: the 4×2 image with pixels `(1,2,3) … (22,23,24)`
rotates by 180° to `(22,23,24),(19,20,21),…,(1,2,3)` in scan order. -/
theorem rotate180_reverses_pixels_witness :
    RotateRgb666 (fun i => (3 * i + 1, 3 * i + 2, 3 * i + 3)) 4 2 180
        (fun _ => (0, 0, 0)) 0 = (22, 23, 24) ∧
    RotateRgb666 (fun i => (3 * i + 1, 3 * i + 2, 3 * i + 3)) 4 2 180
        (fun _ => (0, 0, 0)) 1 = (19, 20, 21) ∧
    RotateRgb666 (fun i => (3 * i + 1, 3 * i + 2, 3 * i + 3)) 4 2 180
        (fun _ => (0, 0, 0)) 2 = (16, 17, 18) ∧
    RotateRgb666 (fun i => (3 * i + 1, 3 * i + 2, 3 * i + 3)) 4 2 180
        (fun _ => (0, 0, 0)) 3 = (13, 14, 15) ∧
    RotateRgb666 (fun i => (3 * i + 1, 3 * i + 2, 3 * i + 3)) 4 2 180
        (fun _ => (0, 0, 0)) 4 = (10, 11, 12) ∧
    RotateRgb666 (fun i => (3 * i + 1, 3 * i + 2, 3 * i + 3)) 4 2 180
        (fun _ => (0, 0, 0)) 5 = (7, 8, 9) ∧
    RotateRgb666 (fun i => (3 * i + 1, 3 * i + 2, 3 * i + 3)) 4 2 180
        (fun _ => (0, 0, 0)) 6 = (4, 5, 6) ∧
    RotateRgb666 (fun i => (3 * i + 1, 3 * i + 2, 3 * i + 3)) 4 2 180
        (fun _ => (0, 0, 0)) 7 = (1, 2, 3) :=
  ⟨(rotate180_reverses_pixels _ _ 4 2 0 (by decide)).trans (by decide),
   (rotate180_reverses_pixels _ _ 4 2 1 (by decide)).trans (by decide),
   (rotate180_reverses_pixels _ _ 4 2 2 (by decide)).trans (by decide),
   (rotate180_reverses_pixels _ _ 4 2 3 (by decide)).trans (by decide),
   (rotate180_reverses_pixels _ _ 4 2 4 (by decide)).trans (by decide),
   (rotate180_reverses_pixels _ _ 4 2 5 (by decide)).trans (by decide),
   (rotate180_reverses_pixels _ _ 4 2 6 (by decide)).trans (by decide),
   (rotate180_reverses_pixels _ _ 4 2 7 (by decide)).trans (by decide)⟩

lemma rot90_pair_coherent (width height sx sy : Nat) (_hsx : sx < width)
    (hsy : sy < height) :
    sy * width + sx
      = (height - 1 - (sx * height + (height - 1 - sy)) % height) * width
        + (sx * height + (height - 1 - sy)) / height := by
  have hr : height - 1 - sy < height := by omega
  rw [Nat.mul_add_mod', Nat.mod_eq_of_lt hr, mul_comm sx height,
    Nat.mul_add_div (by omega), Nat.div_eq_of_lt hr]
  have h1 : height - 1 - (height - 1 - sy) = sy := by omega
  rw [h1]
  simp

lemma mem_rotate90Writes (width height : Nat) (p : Nat × Nat) :
    p ∈ rotate90Writes width height →
    p.2 = (height - 1 - p.1 % height) * width + p.1 / height := by
  intro hp
  simp only [rotate90Writes, tileStarts, List.mem_flatMap, List.mem_map,
    List.mem_range] at hp
  obtain ⟨ty, ⟨tY, htY, hty⟩, tx, ⟨tX, htX, htx⟩, y, hy, x, hx, hp⟩ := hp
  subst hty htx
  rw [← hp]
  exact rot90_pair_coherent width height (tX * 8 + x) (tY * 8 + y)
    (by omega) (by omega)

lemma rotate90Writes_mem_target (width height x y : Nat)
    (hx : x < height) (hy : y < width) :
    (y * height + x, (height - 1 - x) * width + y) ∈ rotate90Writes width height := by
  simp only [rotate90Writes, tileStarts, List.mem_flatMap, List.mem_map,
    List.mem_range]
  refine ⟨(height - 1 - x) / 8 * 8, ⟨(height - 1 - x) / 8, by omega, rfl⟩,
          y / 8 * 8, ⟨y / 8, by omega, rfl⟩,
          (height - 1 - x) % 8, by omega,
          y % 8, by omega, ?_⟩
  have e1 : (height - 1 - x) / 8 * 8 + (height - 1 - x) % 8 = height - 1 - x := by
    omega
  have e2 : y / 8 * 8 + y % 8 = y := by omega
  rw [e1, e2]
  have e3 : height - 1 - (height - 1 - x) = x := by omega
  rw [e3]

lemma Rotate90Tiled_apply (src dst : Buf) (width height x y : Nat)
    (hx : x < height) (hy : y < width) :
    Rotate90Tiled src width height dst (y * height + x)
      = src ((height - 1 - x) * width + y) := by
  refine applyWrites_apply_of_mem src _ dst _ _
    (rotate90Writes_mem_target width height x y hx hy) ?_
  intro w hw hk
  rw [mem_rotate90Writes width height w hw, hk]
  congr 1
  rw [Nat.mul_add_mod', Nat.mod_eq_of_lt hx, mul_comm y height,
    Nat.mul_add_div (by omega), Nat.div_eq_of_lt hx]
  simp

lemma rot270_pair_coherent (width height sx sy : Nat) (hsx : sx < width)
    (hsy : sy < height) :
    sy * width + sx
      = ((width - 1 - sx) * height + sy) % height * width
        + (width - 1 - ((width - 1 - sx) * height + sy) / height) := by
  rw [Nat.mul_add_mod', Nat.mod_eq_of_lt hsy, mul_comm (width - 1 - sx) height,
    Nat.mul_add_div (by omega), Nat.div_eq_of_lt hsy]
  have h1 : width - 1 - (width - 1 - sx + 0) = sx := by omega
  rw [h1]

lemma mem_rotate270Writes (width height : Nat) (p : Nat × Nat) :
    p ∈ rotate270Writes width height →
    p.2 = p.1 % height * width + (width - 1 - p.1 / height) := by
  intro hp
  simp only [rotate270Writes, tileStarts, List.mem_flatMap, List.mem_map,
    List.mem_range] at hp
  obtain ⟨ty, ⟨tY, htY, hty⟩, tx, ⟨tX, htX, htx⟩, y, hy, x, hx, hp⟩ := hp
  subst hty htx
  rw [← hp]
  exact rot270_pair_coherent width height (tX * 8 + x) (tY * 8 + y)
    (by omega) (by omega)

lemma rotate270Writes_mem_target (width height x y : Nat)
    (hx : x < height) (hy : y < width) :
    (y * height + x, x * width + (width - 1 - y)) ∈ rotate270Writes width height := by
  simp only [rotate270Writes, tileStarts, List.mem_flatMap, List.mem_map,
    List.mem_range]
  refine ⟨x / 8 * 8, ⟨x / 8, by omega, rfl⟩,
          (width - 1 - y) / 8 * 8, ⟨(width - 1 - y) / 8, by omega, rfl⟩,
          x % 8, by omega,
          (width - 1 - y) % 8, by omega, ?_⟩
  have e1 : x / 8 * 8 + x % 8 = x := by omega
  have e2 : (width - 1 - y) / 8 * 8 + (width - 1 - y) % 8 = width - 1 - y := by
    omega
  rw [e1, e2]
  have e3 : width - 1 - (width - 1 - y) = y := by omega
  rw [e3]

lemma Rotate270Tiled_apply (src dst : Buf) (width height x y : Nat)
    (hx : x < height) (hy : y < width) :
    Rotate270Tiled src width height dst (y * height + x)
      = src (x * width + (width - 1 - y)) := by
  refine applyWrites_apply_of_mem src _ dst _ _
    (rotate270Writes_mem_target width height x y hx hy) ?_
  intro w hw hk
  rw [mem_rotate270Writes width height w hw, hk]
  congr 1
  rw [Nat.mul_add_mod', Nat.mod_eq_of_lt hx, mul_comm y height,
    Nat.mul_add_div (by omega), Nat.div_eq_of_lt hx]
  simp

lemma RotateRgb666_rot0 (src dst : Buf) (width height : Nat) :
    RotateRgb666 src width height 0 dst = memcpyPixels src (width * height) dst := by
  norm_num [RotateRgb666]

lemma RotateRgb666_rot90 (src dst : Buf) (width height : Nat) :
    RotateRgb666 src width height 90 dst = Rotate90Tiled src width height dst := by
  norm_num [RotateRgb666]

lemma RotateRgb666_rot180 (src dst : Buf) (width height : Nat) :
    RotateRgb666 src width height 180 dst = Rotate180Optimized src width height dst := by
  norm_num [RotateRgb666]

lemma RotateRgb666_rot270 (src dst : Buf) (width height : Nat) :
    RotateRgb666 src width height 270 dst = Rotate270Tiled src width height dst := by
  norm_num [RotateRgb666]

lemma rotate90_rotate270_roundtrip (src d1 d2 : Buf) (width height i : Nat)
    (hi : i < width * height) :
    Rotate270Tiled (Rotate90Tiled src width height d1) height width d2 i = src i := by
  have hw : 0 < width := by
    rcases Nat.eq_zero_or_pos width with h | h
    · rw [h, zero_mul] at hi; exact absurd hi (Nat.not_lt_zero i)
    · exact h
  have hyb : i / width < height := Nat.div_lt_of_lt_mul hi
  have hxb : i % width < width := Nat.mod_lt _ hw
  have hdecomp : i = i / width * width + i % width := by
    rw [mul_comm (i / width) width]
    exact (Nat.div_add_mod i width).symm
  have hh : 0 < height := lt_of_le_of_lt (Nat.zero_le _) hyb
  rw [hdecomp]
  rw [Rotate270Tiled_apply _ d2 height width (i % width) (i / width) hxb hyb]
  rw [Rotate90Tiled_apply src d1 width height (height - 1 - i / width) (i % width)
    (lt_of_le_of_lt (Nat.sub_le _ _) (Nat.sub_lt hh Nat.one_pos)) hxb]
  have e1 : height - 1 - (height - 1 - i / width) = i / width :=
    Nat.sub_sub_self (Nat.le_pred_of_lt hyb)
  rw [e1]

lemma rotate270_rotate90_roundtrip (src d1 d2 : Buf) (width height i : Nat)
    (hi : i < width * height) :
    Rotate90Tiled (Rotate270Tiled src width height d1) height width d2 i = src i := by
  have hw : 0 < width := by
    rcases Nat.eq_zero_or_pos width with h | h
    · rw [h, zero_mul] at hi; exact absurd hi (Nat.not_lt_zero i)
    · exact h
  have hyb : i / width < height := Nat.div_lt_of_lt_mul hi
  have hxb : i % width < width := Nat.mod_lt _ hw
  have hdecomp : i = i / width * width + i % width := by
    rw [mul_comm (i / width) width]
    exact (Nat.div_add_mod i width).symm
  rw [hdecomp]
  rw [Rotate90Tiled_apply _ d2 height width (i % width) (i / width) hxb hyb]
  rw [Rotate270Tiled_apply src d1 width height (i / width) (width - 1 - i % width)
    hyb (lt_of_le_of_lt (Nat.sub_le _ _) (Nat.sub_lt hw Nat.one_pos))]
  have e1 : width - 1 - (width - 1 - i % width) = i % width :=
    Nat.sub_sub_self (Nat.le_pred_of_lt hxb)
  rw [e1]

/-- **C2.** For every rotation `r ∈ {0,90,180,270}` and every `W×H`
image, `RotateRgb666` with rotation `r` followed by `RotateRgb666` with
rotation `(360−r) % 360` (on swapped dimensions for 90/270) restores
every pixel of the original image. -/
theorem RotateRgb666_roundtrip (src d1 d2 : Buf) (width height i : Nat)
    (hi : i < width * height) :
    RotateRgb666 (RotateRgb666 src width height 0 d1)
        width height ((360 - 0) % 360) d2 i = src i ∧
    RotateRgb666 (RotateRgb666 src width height 90 d1)
        height width ((360 - 90) % 360) d2 i = src i ∧
    RotateRgb666 (RotateRgb666 src width height 180 d1)
        width height ((360 - 180) % 360) d2 i = src i ∧
    RotateRgb666 (RotateRgb666 src width height 270 d1)
        height width ((360 - 270) % 360) d2 i = src i := by
  have h0 : ((360 - 0 : Int) % 360) = 0 := by decide
  have h90 : ((360 - 90 : Int) % 360) = 270 := by decide
  have h180 : ((360 - 180 : Int) % 360) = 180 := by decide
  have h270 : ((360 - 270 : Int) % 360) = 90 := by decide
  refine ⟨?_, ?_, ?_, ?_⟩
  · rw [h0, RotateRgb666_rot0, RotateRgb666_rot0]
    simp [memcpyPixels, hi]
  · rw [h90, RotateRgb666_rot90, RotateRgb666_rot270]
    exact rotate90_rotate270_roundtrip src d1 d2 width height i hi
  · rw [h180, RotateRgb666_rot180, RotateRgb666_rot180]
    rw [Rotate180Optimized_apply _ d2 width height i hi]
    rw [Rotate180Optimized_apply src d1 width height (width * height - 1 - i)
      (by omega)]
    congr 1
    omega
  · rw [h270, RotateRgb666_rot270, RotateRgb666_rot90]
    exact rotate270_rotate90_roundtrip src d1 d2 width height i hi

/-- Witness for C2 on the 4×2 image of scenario S1, pixel 0. -/
theorem RotateRgb666_roundtrip_witness :
    RotateRgb666 (RotateRgb666 (fun i => (3 * i + 1, 3 * i + 2, 3 * i + 3))
        4 2 0 (fun _ => (0, 0, 0))) 4 2 ((360 - 0) % 360) (fun _ => (0, 0, 0)) 0
      = (fun i : Nat => (3 * i + 1, 3 * i + 2, 3 * i + 3)) 0 ∧
    RotateRgb666 (RotateRgb666 (fun i => (3 * i + 1, 3 * i + 2, 3 * i + 3))
        4 2 90 (fun _ => (0, 0, 0))) 2 4 ((360 - 90) % 360) (fun _ => (0, 0, 0)) 0
      = (fun i : Nat => (3 * i + 1, 3 * i + 2, 3 * i + 3)) 0 ∧
    RotateRgb666 (RotateRgb666 (fun i => (3 * i + 1, 3 * i + 2, 3 * i + 3))
        4 2 180 (fun _ => (0, 0, 0))) 4 2 ((360 - 180) % 360) (fun _ => (0, 0, 0)) 0
      = (fun i : Nat => (3 * i + 1, 3 * i + 2, 3 * i + 3)) 0 ∧
    RotateRgb666 (RotateRgb666 (fun i => (3 * i + 1, 3 * i + 2, 3 * i + 3))
        4 2 270 (fun _ => (0, 0, 0))) 2 4 ((360 - 270) % 360) (fun _ => (0, 0, 0)) 0
      = (fun i : Nat => (3 * i + 1, 3 * i + 2, 3 * i + 3)) 0 :=
  RotateRgb666_roundtrip (fun i => (3 * i + 1, 3 * i + 2, 3 * i + 3))
    (fun _ => (0, 0, 0)) (fun _ => (0, 0, 0)) 4 2 0 (by decide)

/-- **C9.** For every `rotation_degrees` outside `{0,90,180,270}`,
`RotateRgb666` neither fails nor rejects: it performs the plain
`W·H·3`-byte copy from source to destination, identical to the
rotation-0 case. -/
theorem RotateRgb666_default_copies (src dst : Buf) (width height : Nat)
    (r : Int) (h0 : r ≠ 0) (h90 : r ≠ 90) (h180 : r ≠ 180) (h270 : r ≠ 270) :
    RotateRgb666 src width height r dst = memcpyPixels src (width * height) dst ∧
    RotateRgb666 src width height r dst = RotateRgb666 src width height 0 dst := by
  constructor <;> simp [RotateRgb666, h0, h90, h180, h270]

/-- Witness for C9 at rotation 45. -/
theorem RotateRgb666_default_copies_witness :
    RotateRgb666 (fun i => (3 * i + 1, 3 * i + 2, 3 * i + 3)) 4 2 45
        (fun _ => (0, 0, 0))
      = memcpyPixels (fun i => (3 * i + 1, 3 * i + 2, 3 * i + 3)) (4 * 2)
          (fun _ => (0, 0, 0)) ∧
    RotateRgb666 (fun i => (3 * i + 1, 3 * i + 2, 3 * i + 3)) 4 2 45
        (fun _ => (0, 0, 0))
      = RotateRgb666 (fun i => (3 * i + 1, 3 * i + 2, 3 * i + 3)) 4 2 0
          (fun _ => (0, 0, 0)) :=
  RotateRgb666_default_copies (fun i => (3 * i + 1, 3 * i + 2, 3 * i + 3))
    (fun _ => (0, 0, 0)) 4 2 45 (by decide) (by decide) (by decide) (by decide)

/-! ## SPI transport framing (`src/src/spi_dma_linux.cpp`)

`ILI9488Transport::transferDma` (lines 153-210) is modelled as a pure
function from the configuration, the frame bytes and the `length`
argument to the pair of its boolean result and the sequence of GPIO and
SPI operations it performs.  `sendCommand` (lines 234-244) lowers the
D/C line and transmits one byte; `sendData` (lines 246-256) raises the
D/C line and transmits a burst.  The `ioctl` calls themselves are
assumed to succeed: the trace records what is handed to the kernel. -/

inductive SpiEvent
  | setDc (value : Bool)
  | xfer (bytes : List Nat)
  deriving DecidableEq

/-- `ILI9488Transport::sendCommand`: D/C low, then one byte. -/
def sendCommand (command : Nat) : List SpiEvent :=
  [SpiEvent.setDc false, SpiEvent.xfer [command]]

/-- `ILI9488Transport::sendData`: D/C high, then the burst. -/
def sendData (data : List Nat) : List SpiEvent :=
  [SpiEvent.setDc true, SpiEvent.xfer data]

/-- The configuration fields `transferDma` reads from `SpiConfig`. -/
structure SpiConfig where
  width : Nat
  height : Nat
  pixel_format : Nat
  transfer_chunk_bytes : Nat
  deriving DecidableEq

/-- The chunking loop of `transferDma` (lines 199-207): send the
remaining bytes in bursts of at most `chunkSize`.  The `chunkSize = 0`
guard only serves termination; the source always calls this loop with a
positive chunk size (line 197 substitutes the default 4096 for 0). -/
def chunkEvents (chunkSize : Nat) (buf : List Nat) : List SpiEvent :=
  if h : buf = [] ∨ chunkSize = 0 then []
  else sendData (buf.take chunkSize) ++ chunkEvents chunkSize (buf.drop chunkSize)
termination_by buf.length
decreasing_by
  simp only [List.length_drop]
  have h1 : buf ≠ [] := fun he => h (Or.inl he)
  have h2 : chunkSize ≠ 0 := fun he => h (Or.inr he)
  have h3 := List.length_pos.mpr h1
  omega

/-- The successive bursts the chunking loop emits, as plain byte lists. -/
def chunksOf (chunkSize : Nat) (buf : List Nat) : List (List Nat) :=
  if h : buf = [] ∨ chunkSize = 0 then []
  else buf.take chunkSize :: chunksOf chunkSize (buf.drop chunkSize)
termination_by buf.length
decreasing_by
  simp only [List.length_drop]
  have h1 : buf ≠ [] := fun he => h (Or.inl he)
  have h2 : chunkSize ≠ 0 := fun he => h (Or.inr he)
  have h3 := List.length_pos.mpr h1
  omega

/-- `ILI9488Transport::transferDma` (lines 153-210).  `buf` holds the
bytes of the memory region passed in; `length` is the length argument.
The narrowing casts `uint16_t(width - 1)` and `uint16_t(height - 1)`
are the `% 65536` truncations; `>> 8` and `& 0xFF` on a value below
65536 are `/ 256` and `% 256`. -/
def transferDma (cfg : SpiConfig) (buf : List Nat) (length : Nat) :
    Bool × List SpiEvent :=
  let bytes_per_pixel := if cfg.pixel_format = 0x55 then 2 else 3
  let line_bytes := cfg.width * bytes_per_pixel
  let expected_length := line_bytes * cfg.height
  if length < expected_length then (false, [])
  else
    let col_end := (cfg.width - 1) % 65536
    let col_data := [0, 0, col_end / 256, col_end % 256]
    let page_end := (cfg.height - 1) % 65536
    let page_data := [0, 0, page_end / 256, page_end % 256]
    let chunk_size := if cfg.transfer_chunk_bytes > 0 then cfg.transfer_chunk_bytes
                      else 4096
    (true,
      sendCommand 0x2A ++ sendData col_data ++
      sendCommand 0x2B ++ sendData page_data ++
      sendCommand 0x2C ++
      chunkEvents chunk_size (buf.take expected_length))

lemma chunkEvents_eq_chunksOf (c : Nat) (n : Nat) :
    ∀ buf : List Nat, buf.length ≤ n →
      chunkEvents c buf = (chunksOf c buf).flatMap sendData := by
  induction n with
  | zero =>
    intro buf hb
    have hnil : buf = [] := List.eq_nil_of_length_eq_zero (by omega)
    subst hnil
    rw [chunkEvents, chunksOf]
    simp
  | succ n ih =>
    intro buf hb
    rw [chunkEvents, chunksOf]
    by_cases hguard : buf = [] ∨ c = 0
    · rw [dif_pos hguard, dif_pos hguard]
      rfl
    · rw [dif_neg hguard, dif_neg hguard]
      have h1 : buf ≠ [] := fun he => hguard (Or.inl he)
      have h2 : c ≠ 0 := fun he => hguard (Or.inr he)
      have h3 := List.length_pos.mpr h1
      rw [ih (buf.drop c) (by simp only [List.length_drop]; omega)]
      rfl

lemma chunksOf_flatten (c : Nat) (hc : c ≠ 0) (n : Nat) :
    ∀ buf : List Nat, buf.length ≤ n → (chunksOf c buf).flatten = buf := by
  induction n with
  | zero =>
    intro buf hb
    have hnil : buf = [] := List.eq_nil_of_length_eq_zero (by omega)
    subst hnil
    rw [chunksOf]
    simp
  | succ n ih =>
    intro buf hb
    rw [chunksOf]
    by_cases hbuf : buf = []
    · rw [dif_pos (Or.inl hbuf), hbuf]
      rfl
    · rw [dif_neg (by simp [hbuf, hc])]
      have h3 := List.length_pos.mpr hbuf
      rw [List.flatten_cons, ih (buf.drop c) (by simp only [List.length_drop]; omega)]
      exact List.take_append_drop c buf

lemma chunksOf_mem_bounds (c : Nat) (n : Nat) :
    ∀ buf : List Nat, buf.length ≤ n →
      ∀ ch ∈ chunksOf c buf, ch.length ≤ c ∧ ch ≠ [] := by
  induction n with
  | zero =>
    intro buf hb ch hch
    have hnil : buf = [] := List.eq_nil_of_length_eq_zero (by omega)
    subst hnil
    rw [chunksOf] at hch
    simp at hch
  | succ n ih =>
    intro buf hb ch hch
    rw [chunksOf] at hch
    by_cases hguard : buf = [] ∨ c = 0
    · rw [dif_pos hguard] at hch
      simp at hch
    · rw [dif_neg hguard] at hch
      have h1 : buf ≠ [] := fun he => hguard (Or.inl he)
      have h2 : c ≠ 0 := fun he => hguard (Or.inr he)
      have h3 := List.length_pos.mpr h1
      rcases List.mem_cons.mp hch with heq | htail
      · subst heq
        refine ⟨by simp, ?_⟩
        simp only [ne_eq, List.take_eq_nil_iff]
        push_neg
        exact ⟨h2, h1⟩
      · exact ih (buf.drop c) (by simp only [List.length_drop]; omega) ch htail

/-- **C3.** For a frame whose `length` argument is at least `W·H·3` (in
RGB666 mode), `transferDma` reports success and emits: command `0x2A`
with D/C low followed by the four data bytes
`[0, 0, (W-1) >> 8, (W-1) & 0xFF]` with D/C high; command `0x2B` with
the same pattern built from `H-1`; command `0x2C`; then the first
`W·H·3` bytes of the frame split into consecutive non-empty chunks of
at most `transfer_chunk_bytes` bytes, each sent with D/C high. -/
theorem transferDma_frame_framing (cfg : SpiConfig) (buf : List Nat) (length : Nat)
    (hfmt : cfg.pixel_format ≠ 0x55)
    (hlen : cfg.width * 3 * cfg.height ≤ length)
    (hw1 : 1 ≤ cfg.width) (hw2 : cfg.width ≤ 65536)
    (hh1 : 1 ≤ cfg.height) (hh2 : cfg.height ≤ 65536)
    (hchunk : 0 < cfg.transfer_chunk_bytes) :
    ∃ chunks : List (List Nat),
      transferDma cfg buf length =
        (true,
          [SpiEvent.setDc false, SpiEvent.xfer [0x2A],
           SpiEvent.setDc true,
           SpiEvent.xfer [0, 0, (cfg.width - 1) / 256, (cfg.width - 1) % 256],
           SpiEvent.setDc false, SpiEvent.xfer [0x2B],
           SpiEvent.setDc true,
           SpiEvent.xfer [0, 0, (cfg.height - 1) / 256, (cfg.height - 1) % 256],
           SpiEvent.setDc false, SpiEvent.xfer [0x2C]]
          ++ chunks.flatMap sendData) ∧
      chunks.flatten = buf.take (cfg.width * cfg.height * 3) ∧
      ∀ ch ∈ chunks, ch.length ≤ cfg.transfer_chunk_bytes ∧ ch ≠ [] := by
  have hmul : cfg.width * 3 * cfg.height = cfg.width * cfg.height * 3 := by ring
  refine ⟨chunksOf cfg.transfer_chunk_bytes
            (buf.take (cfg.width * 3 * cfg.height)), ?_, ?_, ?_⟩
  · simp only [transferDma, if_neg hfmt, if_neg (not_lt.mpr hlen), if_pos hchunk]
    rw [Nat.mod_eq_of_lt (show cfg.width - 1 < 65536 by omega),
      Nat.mod_eq_of_lt (show cfg.height - 1 < 65536 by omega)]
    rw [chunkEvents_eq_chunksOf cfg.transfer_chunk_bytes
      (buf.take (cfg.width * 3 * cfg.height)).length _ le_rfl]
    rfl
  · rw [chunksOf_flatten cfg.transfer_chunk_bytes (by omega)
      (buf.take (cfg.width * 3 * cfg.height)).length _ le_rfl, hmul]
  · exact chunksOf_mem_bounds cfg.transfer_chunk_bytes
      (buf.take (cfg.width * 3 * cfg.height)).length _ le_rfl

/-- Witness for C3: a 2×2 RGB666 frame of 12 bytes, chunk size 5. -/
theorem transferDma_frame_framing_witness :
    ∃ chunks : List (List Nat),
      transferDma ⟨2, 2, 0x66, 5⟩ (List.range 16) 12 =
        (true,
          [SpiEvent.setDc false, SpiEvent.xfer [0x2A],
           SpiEvent.setDc true, SpiEvent.xfer [0, 0, (2 - 1) / 256, (2 - 1) % 256],
           SpiEvent.setDc false, SpiEvent.xfer [0x2B],
           SpiEvent.setDc true, SpiEvent.xfer [0, 0, (2 - 1) / 256, (2 - 1) % 256],
           SpiEvent.setDc false, SpiEvent.xfer [0x2C]]
          ++ chunks.flatMap sendData) ∧
      chunks.flatten = (List.range 16).take (2 * 2 * 3) ∧
      ∀ ch ∈ chunks, ch.length ≤ 5 ∧ ch ≠ [] :=
  transferDma_frame_framing ⟨2, 2, 0x66, 5⟩ (List.range 16) 12
    (by decide) (by decide) (by decide) (by decide) (by decide) (by decide)
    (by decide)

/-- **C10.** If `length` is below `width·height·bytes_per_pixel`
(2 for RGB565, 3 otherwise), `transferDma` returns `false` with an
empty operation trace — no SPI command, no D/C change.  If `length` is
at least that size, the call is identical to one with `length` exactly
that size, and only the first `width·height·bytes_per_pixel` bytes of
the buffer influence what is transmitted. -/
theorem transferDma_length_validation (cfg : SpiConfig) (buf : List Nat)
    (length : Nat) :
    (length < cfg.width * (if cfg.pixel_format = 0x55 then 2 else 3) * cfg.height →
      transferDma cfg buf length = (false, [])) ∧
    (cfg.width * (if cfg.pixel_format = 0x55 then 2 else 3) * cfg.height ≤ length →
      transferDma cfg buf length =
        transferDma cfg buf
          (cfg.width * (if cfg.pixel_format = 0x55 then 2 else 3) * cfg.height)) ∧
    (cfg.width * (if cfg.pixel_format = 0x55 then 2 else 3) * cfg.height ≤ length →
      ∀ buf2 : List Nat,
        buf2.take (cfg.width * (if cfg.pixel_format = 0x55 then 2 else 3) * cfg.height)
          = buf.take (cfg.width * (if cfg.pixel_format = 0x55 then 2 else 3) * cfg.height) →
        transferDma cfg buf2 length = transferDma cfg buf length) := by
  refine ⟨?_, ?_, ?_⟩
  · intro hshort
    simp only [transferDma, if_pos hshort]
  · intro hlong
    simp only [transferDma, if_neg (not_lt.mpr hlong), if_neg (lt_irrefl _)]
  · intro hlong buf2 htake
    simp only [transferDma, if_neg (not_lt.mpr hlong), htake]

/-- Witness for C10: a 2×2 RGB666 frame needs 12 bytes; length 5 is
rejected with an empty trace, and length 20 behaves as length 12. -/
theorem transferDma_length_validation_witness :
    transferDma ⟨2, 2, 0x66, 5⟩ (List.range 20) 5 = (false, []) ∧
    transferDma ⟨2, 2, 0x66, 5⟩ (List.range 20) 20 =
      transferDma ⟨2, 2, 0x66, 5⟩ (List.range 20)
        (2 * (if (0x66 : Nat) = 0x55 then 2 else 3) * 2) :=
  ⟨(transferDma_length_validation ⟨2, 2, 0x66, 5⟩ (List.range 20) 5).1 (by decide),
   (transferDma_length_validation ⟨2, 2, 0x66, 5⟩ (List.range 20) 20).2.1 (by decide)⟩

/-! ## BCM DMA 2D rotation engine (`src/src/gpu_rotate.cpp`)

`GpuRotate::configureAndWaitDma` (lines 155-221) is modelled as the pair
of its boolean result and the trace of MMIO register writes, CS reads
and sleeps it performs.  Register stores are 32-bit, so stored values
carry an explicit `% 2^32`; `ylen - 1` is computed in `uint32_t`
arithmetic, hence modelled as `(ylen + 2^32 - 1) % 2^32`.  The CS
register's ACTIVE bit over time is an oracle `csActive : Nat → Bool`
giving its value at the k-th read of the polling loop; elapsed wall time
before the k-th read is idealized as the `k` sleeps performed so far,
`k · 100 µs` (the source measures a monotonic clock, which dominates
this sum).  The source computes `src_stride`/`dst_stride` per rotation
but never stores them to a register; they are omitted. -/

def kDmaCs : Nat := 0x00

def kDmaTi : Nat := 0x08

def kDmaSourceAd : Nat := 0x0C

def kDmaDestAd : Nat := 0x10

def kDmaLen : Nat := 0x14

def kDmaStride : Nat := 0x18

def kDmaCsActive : Nat := 1 <<< 0

def kDmaCsReset : Nat := 1 <<< 31

def kDmaCsWaitWriteResp : Nat := 1 <<< 28

def kDmaTiSrcInc : Nat := 1 <<< 8

def kDmaTiDestInc : Nat := 1 <<< 4

def kDmaTi2d : Nat := 1 <<< 1

/-- The sleep between two CS polls: `std::this_thread::sleep_for
(std::chrono::microseconds(100))` at `gpu_rotate.cpp` line 217. -/
def kDmaPollSleepMicros : Nat := 100

/-- The poll deadline: `const int max_wait_ms = 1000` at line 208. -/
def kDmaMaxWaitMillis : Nat := 1000

inductive DmaEvent
  | readCs
  | sleepMicros (n : Nat)
  | writeReg (reg : Nat) (value : Nat)
  deriving DecidableEq

/-- The fields of `GpuRotate` the rotation path reads: `dma_available_`
and whether `dma_regs_` is non-null. -/
structure GpuRotateState where
  dma_available : Bool
  dma_regs_present : Bool
  deriving DecidableEq

/-- The polling loop of `configureAndWaitDma` (lines 208-218), at poll
number `k`: read CS; exit true when ACTIVE is clear; if the elapsed
milliseconds (`k` sleeps of 100 µs, cast to ms) exceed the 1000 ms
deadline, write `CS ← RESET` and exit false; otherwise sleep 100 µs and
poll again. -/
def pollDmaComplete (csActive : Nat → Bool) (k : Nat) : Bool × List DmaEvent :=
  if csActive k = false then (true, [DmaEvent.readCs])
  else if hdead : k * kDmaPollSleepMicros / 1000 > kDmaMaxWaitMillis then
    (false, [DmaEvent.readCs, DmaEvent.writeReg kDmaCs kDmaCsReset])
  else
    let rest := pollDmaComplete csActive (k + 1)
    (rest.1, DmaEvent.readCs :: DmaEvent.sleepMicros kDmaPollSleepMicros :: rest.2)
termination_by kDmaMaxWaitMillis * 10 + 11 - k
decreasing_by
  simp only [kDmaPollSleepMicros, kDmaMaxWaitMillis] at hdead ⊢
  omega

/-- The register programming and wait of `configureAndWaitDma` (lines
196-220) once `xlen` and `ylen` are fixed. -/
def runDma2d (csActive : Nat → Bool) (src_bus_addr dst_bus_addr xlen ylen : Nat) :
    Bool × List DmaEvent :=
  let poll := pollDmaComplete csActive 0
  (poll.1,
   [DmaEvent.writeReg kDmaSourceAd src_bus_addr,
    DmaEvent.writeReg kDmaDestAd dst_bus_addr,
    DmaEvent.writeReg kDmaLen ((xlen * ylen) % 4294967296),
    DmaEvent.writeReg kDmaStride
      (((((ylen + 4294967295) % 4294967296) <<< 16) % 4294967296)
        ||| (xlen &&& 0xFFFF)),
    DmaEvent.writeReg kDmaTi
      (kDmaTiSrcInc ||| kDmaTiDestInc ||| kDmaTi2d ||| kDmaCsWaitWriteResp),
    DmaEvent.writeReg kDmaCs kDmaCsActive] ++ poll.2)

/-- `GpuRotate::configureAndWaitDma` (lines 155-221).  The `switch`
assigns the same `(xlen, ylen)` to cases 0 and 180 and the same to
cases 90 and 270; the default case returns false before touching any
register. -/
def configureAndWaitDma (st : GpuRotateState) (csActive : Nat → Bool)
    (src_bus_addr dst_bus_addr width height : Nat) (rotation_degrees : Int) :
    Bool × List DmaEvent :=
  if st.dma_available = false ∨ st.dma_regs_present = false then (false, [])
  else if rotation_degrees = 0 ∨ rotation_degrees = 180 then
    runDma2d csActive src_bus_addr dst_bus_addr ((width * 3) % 4294967296) height
  else if rotation_degrees = 90 ∨ rotation_degrees = 270 then
    runDma2d csActive src_bus_addr dst_bus_addr ((height * 3) % 4294967296) width
  else (false, [])

/-- `GpuRotate::rotateRgb666DmaMode` (lines 223-244): requires
`dma_available_`; rotation 0 is a plain memcpy with no register
traffic; otherwise both bus addresses must be non-zero, and the 2D
transfer is configured and awaited.  The destination pixel contents
written by the DMA hardware are outside the model, so the destination
buffer is returned unchanged on the hardware path. -/
def rotateRgb666DmaMode (st : GpuRotateState) (csActive : Nat → Bool)
    (src : Buf) (src_bus_addr : Nat) (dst : Buf) (dst_bus_addr : Nat)
    (width height : Nat) (rotation_degrees : Int) :
    Bool × Buf × List DmaEvent :=
  if st.dma_available = false then (false, dst, [])
  else if rotation_degrees = 0 then
    (true, memcpyPixels src (width * height) dst, [])
  else if src_bus_addr = 0 ∨ dst_bus_addr = 0 then (false, dst, [])
  else
    let c := configureAndWaitDma st csActive src_bus_addr dst_bus_addr
               width height rotation_degrees
    (c.1, dst, c.2)

lemma runDma2d_writes (csActive : Nat → Bool) (src_bus dst_bus xlen ylen : Nat)
    (hx : xlen < 4294967296) (hlen : xlen * ylen < 4294967296)
    (hy1 : 1 ≤ ylen) (hy2 : ylen ≤ 65536) :
    runDma2d csActive src_bus dst_bus (xlen % 4294967296) ylen =
      ((pollDmaComplete csActive 0).1,
       [DmaEvent.writeReg kDmaSourceAd src_bus,
        DmaEvent.writeReg kDmaDestAd dst_bus,
        DmaEvent.writeReg kDmaLen (xlen * ylen),
        DmaEvent.writeReg kDmaStride
          (((ylen - 1) <<< 16) ||| (xlen &&& 0xFFFF)),
        DmaEvent.writeReg kDmaTi
          (kDmaTiSrcInc ||| kDmaTiDestInc ||| kDmaTi2d ||| kDmaCsWaitWriteResp),
        DmaEvent.writeReg kDmaCs kDmaCsActive] ++ (pollDmaComplete csActive 0).2) := by
  simp only [runDma2d]
  rw [Nat.mod_eq_of_lt hx]
  rw [Nat.mod_eq_of_lt hlen]
  have e1 : (ylen + 4294967295) % 4294967296 = ylen - 1 := by omega
  rw [e1]
  have h16 : (2 : Nat) ^ 16 = 65536 := by norm_num
  have e2 : ((ylen - 1) <<< 16) % 4294967296 = (ylen - 1) <<< 16 :=
    Nat.mod_eq_of_lt (by rw [Nat.shiftLeft_eq, h16]; omega)
  rw [e2]

/-- **C7.** With DMA available and the register window mapped, the
hardware rotation path programs the channel registers as
`SOURCE_AD ← src`, `DEST_AD ← dst`, `LEN ← xlen·ylen` with
`(xlen, ylen) = (W·3, H)` for rotations 0/180 and `(H·3, W)` for
90/270, `STRIDE ← ((ylen−1) << 16) | (xlen & 0xFFFF)`,
`TI ← SRC_INC | DEST_INC | 2D | WAIT_WRITE_RESP` (bits 8, 4, 1, 28),
then `CS ← ACTIVE`, and waits for completion; any other rotation value
reports failure with no register traffic, and `rotateRgb666DmaMode`
reaches this path when both bus addresses are non-zero. -/
theorem configureAndWaitDma_register_programming (st : GpuRotateState)
    (csActive : Nat → Bool) (src_bus dst_bus width height : Nat)
    (havail : st.dma_available = true) (hregs : st.dma_regs_present = true)
    (hov : width * 3 * height < 4294967296)
    (hw1 : 1 ≤ width) (hw2 : width ≤ 65536)
    (hh1 : 1 ≤ height) (hh2 : height ≤ 65536) :
    (∀ r : Int, r = 0 ∨ r = 180 →
      configureAndWaitDma st csActive src_bus dst_bus width height r =
        ((pollDmaComplete csActive 0).1,
         [DmaEvent.writeReg kDmaSourceAd src_bus,
          DmaEvent.writeReg kDmaDestAd dst_bus,
          DmaEvent.writeReg kDmaLen (width * 3 * height),
          DmaEvent.writeReg kDmaStride
            (((height - 1) <<< 16) ||| ((width * 3) &&& 0xFFFF)),
          DmaEvent.writeReg kDmaTi
            (kDmaTiSrcInc ||| kDmaTiDestInc ||| kDmaTi2d ||| kDmaCsWaitWriteResp),
          DmaEvent.writeReg kDmaCs kDmaCsActive] ++ (pollDmaComplete csActive 0).2)) ∧
    (∀ r : Int, r = 90 ∨ r = 270 →
      configureAndWaitDma st csActive src_bus dst_bus width height r =
        ((pollDmaComplete csActive 0).1,
         [DmaEvent.writeReg kDmaSourceAd src_bus,
          DmaEvent.writeReg kDmaDestAd dst_bus,
          DmaEvent.writeReg kDmaLen (height * 3 * width),
          DmaEvent.writeReg kDmaStride
            (((width - 1) <<< 16) ||| ((height * 3) &&& 0xFFFF)),
          DmaEvent.writeReg kDmaTi
            (kDmaTiSrcInc ||| kDmaTiDestInc ||| kDmaTi2d ||| kDmaCsWaitWriteResp),
          DmaEvent.writeReg kDmaCs kDmaCsActive] ++ (pollDmaComplete csActive 0).2)) ∧
    (∀ r : Int, r ≠ 0 → r ≠ 90 → r ≠ 180 → r ≠ 270 →
      configureAndWaitDma st csActive src_bus dst_bus width height r = (false, [])) ∧
    (∀ (src dst : Buf) (r : Int), r ≠ 0 → src_bus ≠ 0 → dst_bus ≠ 0 →
      rotateRgb666DmaMode st csActive src src_bus dst dst_bus width height r =
        ((configureAndWaitDma st csActive src_bus dst_bus width height r).1, dst,
         (configureAndWaitDma st csActive src_bus dst_bus width height r).2)) := by
  have hgate : ¬(st.dma_available = false ∨ st.dma_regs_present = false) := by
    simp [havail, hregs]
  refine ⟨?_, ?_, ?_, ?_⟩
  · intro r hr
    simp only [configureAndWaitDma, if_neg hgate, if_pos hr]
    exact runDma2d_writes csActive src_bus dst_bus (width * 3) height
      (by omega) hov hh1 hh2
  · intro r hr
    have hr1 : ¬(r = 0 ∨ r = 180) := by rcases hr with h | h <;> subst h <;> decide
    simp only [configureAndWaitDma, if_neg hgate, if_neg hr1, if_pos hr]
    have hov2 : height * 3 * width < 4294967296 := by
      rw [show height * 3 * width = width * 3 * height by ring]
      exact hov
    exact runDma2d_writes csActive src_bus dst_bus (height * 3) width
      (by omega) hov2 hw1 hw2
  · intro r h0 h90 h180 h270
    simp only [configureAndWaitDma, if_neg hgate,
      if_neg (show ¬(r = 0 ∨ r = 180) by tauto),
      if_neg (show ¬(r = 90 ∨ r = 270) by tauto)]
  · intro src dst r h0 hsrc hdst
    simp only [rotateRgb666DmaMode, if_neg (by simp [havail] : ¬st.dma_available = false),
      if_neg h0, if_neg (show ¬(src_bus = 0 ∨ dst_bus = 0) by tauto)]

/-- Witness for C7 at a concrete 320×240 configuration with the DMA
completing on the first poll. -/
theorem configureAndWaitDma_register_programming_witness :
    ((∀ r : Int, r = 0 ∨ r = 180 →
      configureAndWaitDma ⟨true, true⟩ (fun _ => false) 0x1000 0x2000 320 240 r =
        ((pollDmaComplete (fun _ => false) 0).1,
         [DmaEvent.writeReg kDmaSourceAd 0x1000,
          DmaEvent.writeReg kDmaDestAd 0x2000,
          DmaEvent.writeReg kDmaLen (320 * 3 * 240),
          DmaEvent.writeReg kDmaStride
            (((240 - 1) <<< 16) ||| ((320 * 3) &&& 0xFFFF)),
          DmaEvent.writeReg kDmaTi
            (kDmaTiSrcInc ||| kDmaTiDestInc ||| kDmaTi2d ||| kDmaCsWaitWriteResp),
          DmaEvent.writeReg kDmaCs kDmaCsActive]
          ++ (pollDmaComplete (fun _ => false) 0).2)) ∧
    (∀ r : Int, r = 90 ∨ r = 270 →
      configureAndWaitDma ⟨true, true⟩ (fun _ => false) 0x1000 0x2000 320 240 r =
        ((pollDmaComplete (fun _ => false) 0).1,
         [DmaEvent.writeReg kDmaSourceAd 0x1000,
          DmaEvent.writeReg kDmaDestAd 0x2000,
          DmaEvent.writeReg kDmaLen (240 * 3 * 320),
          DmaEvent.writeReg kDmaStride
            (((320 - 1) <<< 16) ||| ((240 * 3) &&& 0xFFFF)),
          DmaEvent.writeReg kDmaTi
            (kDmaTiSrcInc ||| kDmaTiDestInc ||| kDmaTi2d ||| kDmaCsWaitWriteResp),
          DmaEvent.writeReg kDmaCs kDmaCsActive]
          ++ (pollDmaComplete (fun _ => false) 0).2)) ∧
    (∀ r : Int, r ≠ 0 → r ≠ 90 → r ≠ 180 → r ≠ 270 →
      configureAndWaitDma ⟨true, true⟩ (fun _ => false) 0x1000 0x2000 320 240 r
        = (false, [])) ∧
    (∀ (src dst : Buf) (r : Int), r ≠ 0 → (0x1000 : Nat) ≠ 0 → (0x2000 : Nat) ≠ 0 →
      rotateRgb666DmaMode ⟨true, true⟩ (fun _ => false) src 0x1000 dst 0x2000
          320 240 r =
        ((configureAndWaitDma ⟨true, true⟩ (fun _ => false) 0x1000 0x2000 320 240 r).1,
         dst,
         (configureAndWaitDma ⟨true, true⟩ (fun _ => false) 0x1000 0x2000 320 240 r).2))) :=
  configureAndWaitDma_register_programming ⟨true, true⟩ (fun _ => false)
    0x1000 0x2000 320 240 rfl rfl (by decide) (by decide) (by decide)
    (by decide) (by decide)

/-- One poll iteration that continues: a CS read followed by the
100 µs sleep of `gpu_rotate.cpp` line 217. -/
def pollCycle : List DmaEvent :=
  [DmaEvent.readCs, DmaEvent.sleepMicros kDmaPollSleepMicros]

lemma pollDmaComplete_succeeds (cs : Nat → Bool) :
    ∀ n k, k + n ≤ 10010 → (∀ j, k ≤ j → j < k + n → cs j = true) →
      cs (k + n) = false →
      pollDmaComplete cs k =
        (true, (List.replicate n pollCycle).flatten ++ [DmaEvent.readCs]) := by
  intro n
  induction n with
  | zero =>
    intro k hk hact hclear
    rw [pollDmaComplete]
    rw [if_pos (by rw [← Nat.add_zero k]; exact hclear)]
    simp
  | succ n ih =>
    intro k hk hact hclear
    rw [pollDmaComplete]
    have hck : cs k = true := hact k le_rfl (by omega)
    rw [if_neg (by simp [hck])]
    have hdead : ¬(k * kDmaPollSleepMicros / 1000 > kDmaMaxWaitMillis) := by
      simp only [kDmaPollSleepMicros, kDmaMaxWaitMillis]
      omega
    rw [dif_neg hdead]
    have hrec := ih (k + 1) (by omega)
      (fun j hj1 hj2 => hact j (by omega) (by omega))
      (by rw [show k + 1 + n = k + (n + 1) by omega]; exact hclear)
    rw [hrec]
    simp [pollCycle, List.replicate_succ]

lemma pollDmaComplete_times_out (cs : Nat → Bool)
    (hact : ∀ j, j ≤ 10010 → cs j = true) :
    ∀ n k, k + n = 10010 →
      pollDmaComplete cs k =
        (false, (List.replicate n pollCycle).flatten
                ++ [DmaEvent.readCs, DmaEvent.writeReg kDmaCs kDmaCsReset]) := by
  intro n
  induction n with
  | zero =>
    intro k hk
    rw [pollDmaComplete]
    have hck : cs k = true := hact k (by omega)
    rw [if_neg (by simp [hck])]
    rw [dif_pos (by simp only [kDmaPollSleepMicros, kDmaMaxWaitMillis]; omega)]
    simp
  | succ n ih =>
    intro k hk
    rw [pollDmaComplete]
    have hck : cs k = true := hact k (by omega)
    rw [if_neg (by simp [hck]),
      dif_neg (by simp only [kDmaPollSleepMicros, kDmaMaxWaitMillis]; omega)]
    rw [ih (k + 1) (by omega)]
    simp [pollCycle, List.replicate_succ]

/-- Counterexample to C8 as stated: the sleep between CS polls is
100 µs, not 1 ms.  With the ACTIVE bit set at the first poll and clear
at the second, the loop's trace is read, sleep of 100 µs, read — it
contains no 1 ms (1000 µs) sleep, and the sleep constant of the source
(`std::chrono::microseconds(100)`) is not 1000 µs. -/
theorem poll_sleep_not_one_millisecond :
    pollDmaComplete (fun k => decide (k = 0)) 0 =
      (true, [DmaEvent.readCs, DmaEvent.sleepMicros 100, DmaEvent.readCs]) ∧
    DmaEvent.sleepMicros 1000 ∉ (pollDmaComplete (fun k => decide (k = 0)) 0).2 ∧
    kDmaPollSleepMicros ≠ 1000 := by
  have h := pollDmaComplete_succeeds (fun k => decide (k = 0)) 1 0 (by omega)
    (fun j hj1 hj2 => by
      have hj : j = 0 := by omega
      subst hj
      decide)
    (by decide)
  refine ⟨h.trans (by decide), ?_, by decide⟩
  rw [h]
  decide

/-- **C8 (amended).** After starting a hardware DMA rotation, the
engine polls the CS ACTIVE bit with a 100 µs sleep between polls (the
claim's 1 ms does not match the source) and a 1000 ms deadline on the
elapsed time, which with 100 µs sleeps fires at poll 10010: if ACTIVE
first reads clear at poll `m ≤ 10010`, the loop returns success after
`m` read/sleep cycles; if ACTIVE is still set at every poll through the
deadline, the loop writes RESET to the CS register and returns
failure. -/
theorem poll_cadence_100us_deadline_1s (cs : Nat → Bool) (m : Nat) :
    (m ≤ 10010 → (∀ j, j < m → cs j = true) → cs m = false →
      pollDmaComplete cs 0 =
        (true, (List.replicate m pollCycle).flatten ++ [DmaEvent.readCs])) ∧
    ((∀ j, j ≤ 10010 → cs j = true) →
      pollDmaComplete cs 0 =
        (false, (List.replicate 10010 pollCycle).flatten
                ++ [DmaEvent.readCs, DmaEvent.writeReg kDmaCs kDmaCsReset])) ∧
    pollCycle = [DmaEvent.readCs, DmaEvent.sleepMicros 100] ∧
    kDmaMaxWaitMillis = 1000 := by
  refine ⟨?_, ?_, rfl, rfl⟩
  · intro hm hact hclear
    refine pollDmaComplete_succeeds cs m 0 (by omega)
      (fun j hj1 hj2 => hact j (by omega)) ?_
    rw [Nat.zero_add]
    exact hclear
  · intro hact
    exact pollDmaComplete_times_out cs hact 10010 0 (by omega)

/-- Witness for the amended C8: ACTIVE clears at the second poll
(success after one 100 µs sleep), and ACTIVE never clearing (timeout,
reset write). -/
theorem poll_cadence_100us_deadline_1s_witness :
    pollDmaComplete (fun k => decide (k = 0)) 0 =
      (true, (List.replicate 1 pollCycle).flatten ++ [DmaEvent.readCs]) ∧
    pollDmaComplete (fun _ => true) 0 =
      (false, (List.replicate 10010 pollCycle).flatten
              ++ [DmaEvent.readCs, DmaEvent.writeReg kDmaCs kDmaCsReset]) :=
  ⟨(poll_cadence_100us_deadline_1s (fun k => decide (k = 0)) 1).1 (by omega)
     (fun j hj => by
       have hj0 : j = 0 := by omega
       subst hj0
       decide)
     (by decide),
   (poll_cadence_100us_deadline_1s (fun _ => true) 0).2.1 (fun j hj => rfl)⟩
